import Mathlib

/-!
Verification of the crusoe-splunk-hec forwarding pipeline
(`deduplicator.py`, `splunk_hec.py`, `crusoe_client.py`, `main.py`)
against its natural-language specification.

Conventions of the shallow embedding:
* A Python `Dict` audit-log event is a list of string key/value pairs
  (`str()` is applied to each field before hashing in the source, so string
  values lose no generality for the hashed fields).
* Wall-clock times (`time.time()` floats) are modelled as integers (seconds);
  every operation the code performs on them (subtraction, comparison) is
  exact over any ordered ring, so the window arithmetic is unchanged.
* Fallible code returns `Except PyError` values; `PyError` enumerates the
  exception classes the code distinguishes.
-/

namespace Crusoe

/-- An audit-log event: a dictionary of string fields.  Python dict keys are
unique, but none of the definitions below depend on that except where a
`Nodup` hypothesis is stated explicitly. -/
abbrev Event := List (String × String)

/-- Python `event.get(key, '')`. -/
def Event.getField (e : Event) (k : String) : String := (List.lookup k e).getD ""

/-- The exception classes distinguished by the code. -/
inductive PyError where
  | crusoeAPIError : PyError
  | splunkHECError : PyError
deriving DecidableEq, Repr

/-! ### UTF-8 and SHA-256 (hashlib.sha256 over `key_string.encode('utf-8')`) -/

/-- UTF-8 encoding of one character (RFC 3629), bytes as `Nat < 256`. -/
def utf8EncodeChar (c : Char) : List Nat :=
  let n := c.toNat
  if n < 0x80 then [n]
  else if n < 0x800 then [0xC0 ||| (n >>> 6), 0x80 ||| (n &&& 0x3F)]
  else if n < 0x10000 then
    [0xE0 ||| (n >>> 12), 0x80 ||| ((n >>> 6) &&& 0x3F), 0x80 ||| (n &&& 0x3F)]
  else
    [0xF0 ||| (n >>> 18), 0x80 ||| ((n >>> 12) &&& 0x3F),
     0x80 ||| ((n >>> 6) &&& 0x3F), 0x80 ||| (n &&& 0x3F)]

/-- Python `s.encode('utf-8')`. -/
def strBytes (s : String) : List Nat := s.data.flatMap utf8EncodeChar

/-- Truncation to a 32-bit word. -/
def w32 (n : Nat) : Nat := n % 4294967296

/-- 32-bit right rotation (argument assumed `< 2^32`). -/
def rotr32 (x n : Nat) : Nat := w32 ((x >>> n) ||| (x <<< (32 - n)))

def shaCh (x y z : Nat) : Nat := (x &&& y) ^^^ ((x ^^^ 0xFFFFFFFF) &&& z)

def shaMaj (x y z : Nat) : Nat := (x &&& y) ^^^ (x &&& z) ^^^ (y &&& z)

def bigSigma0 (x : Nat) : Nat := rotr32 x 2 ^^^ rotr32 x 13 ^^^ rotr32 x 22

def bigSigma1 (x : Nat) : Nat := rotr32 x 6 ^^^ rotr32 x 11 ^^^ rotr32 x 25

def smallSigma0 (x : Nat) : Nat := rotr32 x 7 ^^^ rotr32 x 18 ^^^ (x >>> 3)

def smallSigma1 (x : Nat) : Nat := rotr32 x 17 ^^^ rotr32 x 19 ^^^ (x >>> 10)

/-- The SHA-256 round constants. -/
def sha256K : List Nat :=
  [1116352408, 1899447441, 3049323471, 3921009573, 961987163,
   1508970993, 2453635748, 2870763221, 3624381080, 310598401,
   607225278, 1426881987, 1925078388, 2162078206, 2614888103,
   3248222580, 3835390401, 4022224774, 264347078, 604807628,
   770255983, 1249150122, 1555081692, 1996064986, 2554220882,
   2821834349, 2952996808, 3210313671, 3336571891, 3584528711,
   113926993, 338241895, 666307205, 773529912, 1294757372,
   1396182291, 1695183700, 1986661051, 2177026350, 2456956037,
   2730485921, 2820302411, 3259730800, 3345764771, 3516065817,
   3600352804, 4094571909, 275423344, 430227734, 506948616,
   659060556, 883997877, 958139571, 1322822218, 1537002063,
   1747873779, 1955562222, 2024104815, 2227730452, 2361852424,
   2428436474, 2756734187, 3204031479, 3329325298]

/-- The SHA-256 initial hash value. -/
def sha256H0 : List Nat :=
  [1779033703, 3144134277, 1013904242, 2773480762,
   1359893119, 2600822924, 528734635, 1541459225]

/-- Big-endian byte serialization of `n` on `k` bytes. -/
def natToBytesBE (n k : Nat) : List Nat :=
  (List.range k).map (fun i => (n >>> (8 * (k - 1 - i))) % 256)

/-- SHA-256 message padding: append `0x80`, zeros to 56 mod 64, then the
bit length on 8 bytes. -/
def sha256Pad (msg : List Nat) : List Nat :=
  let len := msg.length
  let zeros := (64 + 56 - (len + 1) % 64) % 64
  msg ++ [0x80] ++ List.replicate zeros 0 ++ natToBytesBE (8 * len) 8

/-- Fuelled worker for `chunksOf` (structural recursion on the fuel so that
the kernel can evaluate it; the fuel is always instantiated with the list
length, which suffices). -/
def chunksOfAux (n : Nat) : Nat → List α → List (List α)
  | _, [] => []
  | 0, x :: xs => [x :: xs]
  | fuel + 1, x :: xs => (x :: xs.take (n - 1)) :: chunksOfAux n fuel (xs.drop (n - 1))

/-- Consecutive chunks of size `n` (for `n > 0` this is the sequence of
Python slices `l[0:n], l[n:2n], ...`; also used for SHA-256 blocks). -/
def chunksOf (n : Nat) (l : List α) : List (List α) := chunksOfAux n l.length l

/-- Big-endian word from (up to four) bytes. -/
def bytesToWord (bs : List Nat) : Nat := bs.foldl (fun acc b => acc * 256 + b) 0

/-- Extend 16 message-schedule words to 64. -/
def sha256Schedule (ws : List Nat) : List Nat :=
  ((List.range 48).foldl
    (fun w _ =>
      let t := w.size
      w.push (w32 (smallSigma1 (w.getD (t - 2) 0) + w.getD (t - 7) 0 +
        smallSigma0 (w.getD (t - 15) 0) + w.getD (t - 16) 0)))
    ws.toArray).toList

/-- One SHA-256 compression round. -/
def sha256Round (st : Nat × Nat × Nat × Nat × Nat × Nat × Nat × Nat) (kw : Nat × Nat) :
    Nat × Nat × Nat × Nat × Nat × Nat × Nat × Nat :=
  let (a, b, c, d, e, f, g, h) := st
  let t1 := w32 (h + bigSigma1 e + shaCh e f g + kw.1 + kw.2)
  let t2 := w32 (bigSigma0 a + shaMaj a b c)
  (w32 (t1 + t2), a, b, c, w32 (d + t1), e, f, g)

/-- SHA-256 compression of one 16-word block into the running hash. -/
def sha256Compress (h : List Nat) (blockWords : List Nat) : List Nat :=
  match h with
  | [h0, h1, h2, h3, h4, h5, h6, h7] =>
    let w := sha256Schedule blockWords
    let (a, b, c, d, e, f, g, hh) :=
      (List.zip sha256K w).foldl sha256Round (h0, h1, h2, h3, h4, h5, h6, h7)
    [w32 (h0 + a), w32 (h1 + b), w32 (h2 + c), w32 (h3 + d),
     w32 (h4 + e), w32 (h5 + f), w32 (h6 + g), w32 (h7 + hh)]
  | other => other

/-- SHA-256 digest of a byte string, as eight 32-bit words. -/
def sha256DigestWords (msg : List Nat) : List Nat :=
  (chunksOf 64 (sha256Pad msg)).foldl
    (fun h blk => sha256Compress h ((chunksOf 4 blk).map bytesToWord)) sha256H0

/-- SHA-256 digest as 32 bytes (`hashlib.sha256(...).digest()`). -/
def sha256DigestBytes (msg : List Nat) : List Nat :=
  (sha256DigestWords msg).flatMap (fun wd => natToBytesBE wd 4)

/-- Lowercase fixed-width hexadecimal rendering of `n`. -/
def toHexLower (n digits : Nat) : String :=
  String.mk ((List.range digits).map
    (fun i => "0123456789abcdef".data.getD ((n >>> (4 * (digits - 1 - i))) % 16) '0'))

/-- `hashlib.sha256(...).hexdigest()`. -/
def sha256Hexdigest (msg : List Nat) : String :=
  String.join ((sha256DigestWords msg).map (fun wd => toHexLower wd 8))

/-! ### Event fingerprint (`EventDeduplicator._generate_event_hash`) -/

/-- The six identity fields, in the order the source reads them. -/
def identityFields (event : Event) : List String :=
  [event.getField "start_time",
   event.getField "actor_id",
   event.getField "action",
   event.getField "target_type",
   event.getField "target_id",
   event.getField "organization_id"]

/-- Embeds `EventDeduplicator._generate_event_hash`: SHA-256 hexdigest of the
six identity fields (missing read as `''`) joined with `'|'`. -/
def generate_event_hash (event : Event) : String :=
  let key_string := String.intercalate "|" (identityFields event)
  sha256Hexdigest (strBytes key_string)

/-! ### Deduplication store (`deduplicator.py`)

The in-memory `seen_events` dict is an insertion-ordered association list
from fingerprint to the integer timestamp at which it was recorded. -/

abbrev SeenEvents := List (String × Int)

/-- Embeds `EventDeduplicator._cleanup_old_entries`: the dict comprehension
keeps exactly the entries with `timestamp > now - tracking_window` (strict). -/
def cleanup_old_entries (enabled : Bool) (tracking_window now : Int) (seen : SeenEvents) :
    SeenEvents :=
  if !enabled then seen
  else seen.filter (fun p => decide (now - tracking_window < p.2))

/-- Embeds `EventDeduplicator.is_duplicate`: purge first, then test key
membership.  Returns the result together with the updated `seen_events`
(the purge mutates the dict). -/
def is_duplicate (enabled : Bool) (tracking_window now : Int) (seen : SeenEvents)
    (event : Event) : Bool × SeenEvents :=
  if !enabled then (false, seen)
  else
    let seen' := cleanup_old_entries true tracking_window now seen
    ((List.lookup (generate_event_hash event) seen').isSome, seen')

/-- The loop body of `EventDeduplicator.filter_duplicates`. -/
def filter_duplicates_go (tracking_window now : Int) :
    SeenEvents → List Event → List Event × SeenEvents
  | seen, [] => ([], seen)
  | seen, e :: rest =>
    let r := is_duplicate true tracking_window now seen e
    let tail := filter_duplicates_go tracking_window now r.2 rest
    (if r.1 then tail.1 else e :: tail.1, tail.2)

/-- Embeds `EventDeduplicator.filter_duplicates`. -/
def filter_duplicates (enabled : Bool) (tracking_window now : Int) (seen : SeenEvents)
    (events : List Event) : List Event × SeenEvents :=
  if !enabled then (events, seen)
  else filter_duplicates_go tracking_window now seen events

/-- The insert-if-absent loop of `EventDeduplicator.mark_events_as_sent`
(new keys are appended, matching Python dict insertion order). -/
def mark_go (now : Int) : SeenEvents → List Event → SeenEvents
  | seen, [] => seen
  | seen, e :: rest =>
    let h := generate_event_hash e
    mark_go now (if (List.lookup h seen).isSome then seen else seen ++ [(h, now)]) rest

/-- Embeds `EventDeduplicator.mark_events_as_sent`.  The second component is
the file contents written by `_save_state` (`some` = the full updated state
was persisted, `none` = nothing written). -/
def mark_events_as_sent (enabled : Bool) (now : Int) (seen : SeenEvents)
    (events : List Event) : SeenEvents × Option SeenEvents :=
  if !enabled || events.isEmpty then (seen, none)
  else
    let seen' := mark_go now seen events
    (seen', some seen')

/-! ### State-file loading (`EventDeduplicator._load_state`) -/

/-- A value stored under a fingerprint in the state file, as seen by the
`float(timestamp)` conversion. -/
inductive TimestampValue where
  | num (t : Int) : TimestampValue
  | malformed : TimestampValue
deriving DecidableEq

/-- The `seen_events` entry of the parsed state file. -/
inductive SeenField where
  | missing : SeenField
  | notDict : SeenField
  | dict (entries : List (String × TimestampValue)) : SeenField

/-- The persisted state file as `_load_state` encounters it. -/
inductive StateFile where
  | absent : StateFile
  | unparsable : StateFile
  | notObject : StateFile
  | parsed (sf : SeenField) : StateFile

def tsValue : TimestampValue → Int
  | .num t => t
  | .malformed => 0

def anyMalformed (entries : List (String × TimestampValue)) : Bool :=
  entries.any (fun p => match p.2 with | .malformed => true | .num _ => false)

/-- Embeds `EventDeduplicator._load_state`: every failure mode
(absent file, JSON decode error, non-dict data, non-numeric timestamp —
the latter two caught by the `except` clauses) leaves the store empty;
a good file is loaded and then purged. -/
def load_state (enabled : Bool) (tracking_window now : Int) (file : StateFile) : SeenEvents :=
  if !enabled then []
  else match file with
  | .absent => []
  | .unparsable => []
  | .notObject => []
  | .parsed .missing => cleanup_old_entries true tracking_window now []
  | .parsed .notDict => []
  | .parsed (.dict entries) =>
    if anyMalformed entries then []
    else cleanup_old_entries true tracking_window now
      (entries.map (fun p => (p.1, tsValue p.2)))

/-! ### Sink delivery (`splunk_hec.py`) -/

/-- The parsed JSON body of a HEC response: `malformed` models
`response.json()` raising (a `RequestException` subclass). -/
inductive BodyParse where
  | malformed : BodyParse
  | obj (fields : List (String × String)) : BodyParse

/-- Outcome of the HTTP POST to the collector (after the transport-level
retry policy inside the session). -/
inductive Transport where
  | requestException : Transport
  | response (status : Nat) (body : BodyParse) : Transport

/-- `requests.Response.raise_for_status` raises exactly for 4xx/5xx. -/
def raise_for_status_raises (status : Nat) : Bool :=
  decide (400 ≤ status ∧ status < 600)

/-- Embeds `SplunkHECClient.send_events`: `.ok true` on confirmed delivery,
`.error splunkHECError` when the code raises. -/
def send_events (t : Transport) (log_entries : List Event) : Except PyError Bool :=
  if log_entries.isEmpty then .ok true
  else match t with
  | .requestException => .error .splunkHECError
  | .response status body =>
    if raise_for_status_raises status then .error .splunkHECError
    else match body with
    | .malformed => .error .splunkHECError
    | .obj fields =>
      if List.lookup "text" fields = some "Success" then .ok true
      else .error .splunkHECError

/-- The batch loop of `SplunkHECClient.send_events_batch`: `ok i` tells
whether `send_events` on the `i`-th chunk (0-based) succeeds or raises
`SplunkHECError` (which the loop catches and skips). -/
def send_batch_go (ok : Nat → Bool) : Nat → Nat → List Event → List (List Event) → Nat × List Event
  | _, total_sent, acc, [] => (total_sent, acc)
  | i, total_sent, acc, batch :: rest =>
    if ok i then send_batch_go ok (i + 1) (total_sent + batch.length) (acc ++ batch) rest
    else send_batch_go ok (i + 1) total_sent acc rest

/-- Embeds `SplunkHECClient.send_events_batch`. -/
def send_events_batch (ok : Nat → Bool) (log_entries : List Event) (batch_size : Nat) :
    Nat × List Event :=
  if log_entries.isEmpty then (0, [])
  else send_batch_go ok 0 0 [] (chunksOf batch_size log_entries)

/-- The in-order concatenation of the chunks whose send succeeded
(the claim's characterization of `accepted_events`). -/
def acceptedJoin (ok : Nat → Bool) : Nat → List (List Event) → List Event
  | _, [] => []
  | i, c :: cs => if ok i then c ++ acceptedJoin ok (i + 1) cs else acceptedJoin ok (i + 1) cs

/-! ### Paginated fetch (`CrusoeClient.get_audit_logs_paginated`) -/

/-- Outcome of one `get_audit_logs` call: a page of events, the typed
`CrusoeAPIError`, or any other exception. -/
inductive PageResult where
  | ok (logs : List Event) : PageResult
  | apiError : PageResult
  | otherError : PageResult

/-- Python truthiness of `if max_pages and page_count >= max_pages`
(`max_pages = 0` is falsy, so a zero cap never triggers). -/
def cap_reached (max_pages : Option Nat) (page_count : Nat) : Bool :=
  match max_pages with
  | none => false
  | some m => decide (m ≠ 0) && decide (m ≤ page_count)

/-- The `while True` loop of `get_audit_logs_paginated`.  The page oracle is
a function of (offset, limit); `fuel` bounds the number of iterations and
`none` means the loop did not finish within `fuel` steps. -/
def paginate_go (oracle : Nat → Nat → PageResult) (page_size : Nat) (max_pages : Option Nat) :
    Nat → List Event → Nat → Nat → Option (Except PyError (List Event))
  | 0, _, _, _ => none
  | fuel + 1, all_logs, offset, page_count =>
    if cap_reached max_pages page_count then some (.ok all_logs)
    else match oracle offset page_size with
    | .apiError => some (.error .crusoeAPIError)
    | .otherError => some (.ok all_logs)
    | .ok logs =>
      if logs.isEmpty then some (.ok all_logs)
      else if logs.length < page_size then some (.ok (all_logs ++ logs))
      else paginate_go oracle page_size max_pages fuel (all_logs ++ logs)
        (offset + logs.length) (page_count + 1)

/-- Embeds `CrusoeClient.get_audit_logs_paginated`. -/
def get_audit_logs_paginated (oracle : Nat → Nat → PageResult) (page_size : Nat)
    (max_pages : Option Nat) (fuel : Nat) : Option (Except PyError (List Event)) :=
  paginate_go oracle page_size max_pages fuel [] 0 0

/-- Prepend already-accumulated events to a pagination outcome; an error
swallows the accumulation (the exception discards partial results). -/
def exceptPrepend (acc : List Event) : Except PyError (List Event) → Except PyError (List Event)
  | .ok l => .ok (acc ++ l)
  | .error e => .error e

/-- The specification's description of pagination, written from the claim:
offsets grow by the count of events each page returned, the limit is fixed
to `page_size`, pages are concatenated in order, the loop stops on an empty
page, a short page or the page cap, a typed API error aborts the whole call
with no partial result, and any other exception truncates-and-returns. -/
inductive PaginationSpec (oracle : Nat → Nat → PageResult) (page_size : Nat)
    (max_pages : Option Nat) : Nat → Nat → Except PyError (List Event) → Prop where
  | capped (offset page_count : Nat)
      (hcap : cap_reached max_pages page_count = true) :
      PaginationSpec oracle page_size max_pages offset page_count (.ok [])
  | apiAbort (offset page_count : Nat)
      (hcap : cap_reached max_pages page_count = false)
      (h : oracle offset page_size = .apiError) :
      PaginationSpec oracle page_size max_pages offset page_count (.error .crusoeAPIError)
  | unexpectedTruncate (offset page_count : Nat)
      (hcap : cap_reached max_pages page_count = false)
      (h : oracle offset page_size = .otherError) :
      PaginationSpec oracle page_size max_pages offset page_count (.ok [])
  | emptyPage (offset page_count : Nat)
      (hcap : cap_reached max_pages page_count = false)
      (h : oracle offset page_size = .ok []) :
      PaginationSpec oracle page_size max_pages offset page_count (.ok [])
  | shortPage (offset page_count : Nat) (logs : List Event)
      (hcap : cap_reached max_pages page_count = false)
      (h : oracle offset page_size = .ok logs) (hne : logs ≠ [])
      (hlt : logs.length < page_size) :
      PaginationSpec oracle page_size max_pages offset page_count (.ok logs)
  | fullPage (offset page_count : Nat) (logs : List Event) (r : Except PyError (List Event))
      (hcap : cap_reached max_pages page_count = false)
      (h : oracle offset page_size = .ok logs) (hne : logs ≠ [])
      (hge : ¬ logs.length < page_size)
      (htail : PaginationSpec oracle page_size max_pages (offset + logs.length)
        (page_count + 1) r) :
      PaginationSpec oracle page_size max_pages offset page_count (exceptPrepend logs r)

/-! ### Daemon scheduling loop (`main.py` `daemon`) -/

/-- The time window a daemon cycle queries, from `last_run_time` and the
wall clock `now` captured at the top of the cycle (the overlap constant in
the source is 30 seconds). -/
def cycle_window (lookback : Int) (last_run_time : Option Int) (now : Int) : Int × Int :=
  match last_run_time with
  | none => (now - lookback, now)
  | some t => (t - 30, now)

/-- End-of-cycle update: `last_run_time = end_time` only when
`forward_logs` completed without raising. -/
def daemon_step (last_run_time : Option Int) (now : Int) (succeeded : Bool) : Option Int :=
  if succeeded then some now else last_run_time

/-- Run a sequence of cycles, each given as (its `end_time`, whether it
completed without raising), threading `last_run_time`. -/
def daemon_run : Option Int → List (Int × Bool) → Option Int
  | st, [] => st
  | st, (now, s) :: rest => daemon_run (daemon_step st now s) rest

/-- Spec-side: the end time of the last cycle that completed successfully. -/
def last_successful_end : List (Int × Bool) → Option Int
  | [] => none
  | (now, s) :: rest =>
    match last_successful_end rest with
    | some t => some t
    | none => if s then some now else none

/-! ### Request signing (`CrusoeClient._create_crusoe_signature`) -/

/-- The base64url alphabet. -/
def b64urlAlphabet : List Char :=
  "ABCDEFGHIJKLMNOPQRSTUVWXYZabcdefghijklmnopqrstuvwxyz0123456789-_".data

def b64CharVal (c : Char) : Option Nat := b64urlAlphabet.findIdx? (fun d => d == c)

/-- Decode base64 values in groups of four (two/three leftover values give
one/two bytes). -/
def b64DecodeQuads : List Nat → List Nat
  | a :: b :: c :: d :: rest =>
    ((a <<< 2) ||| (b >>> 4)) :: (((b &&& 15) <<< 4) ||| (c >>> 2)) ::
      (((c &&& 3) <<< 6) ||| d) :: b64DecodeQuads rest
  | [a, b, c] => [(a <<< 2) ||| (b >>> 4), ((b &&& 15) <<< 4) ||| (c >>> 2)]
  | [a, b] => [(a <<< 2) ||| (b >>> 4)]
  | _ => []

/-- Embeds Python `base64.urlsafe_b64decode` in its default non-validating
mode: characters outside the alphabet are discarded, data ends at the first
`'='`, and decoding fails (`none`, i.e. `binascii.Error`) when the number
of data characters is 1 mod 4 or when a 2-or-3 leftover group has no
padding character after it. -/
def urlsafe_b64decode (s : String) : Option (List Nat) :=
  let chars := s.data.filter (fun c => (b64CharVal c).isSome || c == '=')
  let datachars := chars.takeWhile (fun c => c ≠ '=')
  let vals := datachars.map (fun c => (b64CharVal c).getD 0)
  let r := datachars.length % 4
  if r = 1 then none
  else if r = 0 then some (b64DecodeQuads vals)
  else if datachars.length < chars.length then some (b64DecodeQuads vals)
  else none

/-- The padding the source appends: `secret + '=' * (-len(secret) % 4)`. -/
def pad_base64 (s : String) : String :=
  s ++ String.mk (List.replicate ((4 - s.length % 4) % 4) '=')

/-- `hmac.new(key, msg, hashlib.sha256).digest()` (RFC 2104). -/
def hmac_sha256 (key msg : List Nat) : List Nat :=
  let key1 := if 64 < key.length then sha256DigestBytes key else key
  let key0 := key1 ++ List.replicate (64 - key1.length) 0
  sha256DigestBytes ((key0.map (fun b => b ^^^ 0x5c)) ++
    sha256DigestBytes ((key0.map (fun b => b ^^^ 0x36)) ++ msg))

/-- Base64 encoding in groups of three bytes, with `'='` padding. -/
def b64EncodeGroups : List Nat → List Char
  | a :: b :: c :: rest =>
    b64urlAlphabet.getD (a >>> 2) 'A' ::
      b64urlAlphabet.getD (((a &&& 3) <<< 4) ||| (b >>> 4)) 'A' ::
      b64urlAlphabet.getD (((b &&& 15) <<< 2) ||| (c >>> 6)) 'A' ::
      b64urlAlphabet.getD (c &&& 63) 'A' :: b64EncodeGroups rest
  | [a, b] =>
    [b64urlAlphabet.getD (a >>> 2) 'A',
     b64urlAlphabet.getD (((a &&& 3) <<< 4) ||| (b >>> 4)) 'A',
     b64urlAlphabet.getD ((b &&& 15) <<< 2) 'A', '=']
  | [a] =>
    [b64urlAlphabet.getD (a >>> 2) 'A', b64urlAlphabet.getD ((a &&& 3) <<< 4) 'A', '=', '=']
  | [] => []

/-- `base64.urlsafe_b64encode(...)`. -/
def urlsafe_b64encode (bytes : List Nat) : String := String.mk (b64EncodeGroups bytes)

/-- Python `str.rstrip("=")`. -/
def rstripEq (s : String) : String :=
  String.mk (s.data.reverse.dropWhile (fun c => c == '=')).reverse

/-- One character of `urllib.parse.quote_plus` (safe set = ASCII
alphanumerics and `'_.-~'`; space becomes `'+'`; everything else is
percent-encoded bytewise in uppercase hex). -/
def quote_plus_char (c : Char) : String :=
  if c.isAlphanum || c = '_' || c = '.' || c = '-' || c = '~' then String.singleton c
  else if c = ' ' then "+"
  else String.join ((utf8EncodeChar c).map (fun b =>
    String.mk ['%', "0123456789ABCDEF".data.getD ((b >>> 4) % 16) '0',
      "0123456789ABCDEF".data.getD (b % 16) '0']))

def quote_plus (s : String) : String := String.join (s.data.map quote_plus_char)

/-- Python `sorted(params.items())`: lexicographic on (key, value). -/
def sortParams (params : List (String × String)) : List (String × String) :=
  params.mergeSort (fun a b =>
    decide (a.1 < b.1) || (decide (a.1 = b.1) && decide (a.2 ≤ b.2)))

/-- `urllib.parse.urlencode` over an already-sorted item list. -/
def urlencode (params : List (String × String)) : String :=
  String.intercalate "&" (params.map (fun p => quote_plus p.1 ++ "=" ++ quote_plus p.2))

structure SignatureHeaders where
  x_crusoe_timestamp : String
  authorization : String
deriving DecidableEq

/-- Embeds `CrusoeClient._create_crusoe_signature`.  `full_path` is
`urlparse(url).path` and `timestamp` the already-formatted UTC second
timestamp (the source derives it from the wall clock).  A secret that fails
base64url decoding raises `CrusoeAPIError` — the source has no separate
authentication-error class. -/
def create_crusoe_signature (access_key_id secret_access_key method full_path : String)
    (params : List (String × String)) (timestamp : String) :
    Except PyError SignatureHeaders :=
  let http_path := if full_path.startsWith "/v1alpha5/" then full_path.drop 10 else full_path
  let canonicalized_query_params := if params.isEmpty then "" else urlencode (sortParams params)
  let payload := "/v1alpha5/" ++ http_path ++ "\n" ++ canonicalized_query_params ++ "\n" ++
    method ++ "\n" ++ timestamp ++ "\n"
  match urlsafe_b64decode (pad_base64 secret_access_key) with
  | none => .error .crusoeAPIError
  | some decoded_secret =>
    let signature := rstripEq (urlsafe_b64encode (hmac_sha256 decoded_secret (strBytes payload)))
    .ok { x_crusoe_timestamp := timestamp,
          authorization := "Bearer " ++ "1.0" ++ ":" ++ access_key_id ++ ":" ++ signature }

/-- Embeds `CrusoeClient._sign_request` (token mode, keyed mode, or no
credentials). -/
def sign_request (api_token access_key_id secret_access_key : Option String)
    (method full_path : String) (params : List (String × String)) (timestamp : String) :
    Except PyError (List (String × String)) :=
  match api_token with
  | some tok => .ok [("Authorization", "Bearer " ++ tok)]
  | none =>
    match access_key_id, secret_access_key with
    | some ak, some sk =>
      match create_crusoe_signature ak sk method full_path params timestamp with
      | .error e => .error e
      | .ok h => .ok [("X-Crusoe-Timestamp", h.x_crusoe_timestamp),
                      ("Authorization", h.authorization)]
    | _, _ => .ok []

/-- Embeds `CrusoeClient.get_audit_logs`, instrumented with whether the HTTP
request was ever issued (second component).  `transport` is what
`session.get` + `raise_for_status` + parsing would yield; a transport
failure is wrapped into `CrusoeAPIError`, while a signing error propagates
unchanged and the request is never attempted. -/
def get_audit_logs_signed (api_token access_key_id secret_access_key : Option String)
    (full_path : String) (params : List (String × String)) (timestamp : String)
    (transport : Except Unit (List Event)) : Except PyError (List Event) × Bool :=
  match sign_request api_token access_key_id secret_access_key "GET" full_path params timestamp with
  | .error e => (.error e, false)
  | .ok _ =>
    match transport with
    | .error _ => (.error .crusoeAPIError, true)
    | .ok logs => (.ok logs, true)

/-- 250 distinct events for the batch scenario of the spec. -/
def evs250 : List Event := (List.range 250).map (fun k => [("target_id", toString k)])

/-- A sample event (witness fixture). -/
def e0 : Event := [("action", "x")]

/-- The same identity fields as `e0` plus a non-identity field. -/
def e0x : Event := [("action", "x"), ("extra", "zzz")]

/-- A page oracle serving three events in pages of two (witness fixture). -/
def pageOracle3 : Nat → Nat → PageResult := fun offset limit =>
  if offset == 0 && limit == 2 then .ok [[("target_id", "0")], [("target_id", "1")]]
  else if offset == 2 && limit == 2 then .ok [[("target_id", "2")]]
  else .apiError

/-! ## Theorems -/

theorem chunksOfAux_congr (n : Nat) : ∀ (fuel fuel' : Nat) (l : List α),
    l.length ≤ fuel → l.length ≤ fuel' → chunksOfAux n fuel l = chunksOfAux n fuel' l := by
  intro fuel
  induction fuel with
  | zero =>
    intro fuel' l h _
    match l with
    | [] => cases fuel' <;> rfl
    | x :: xs => simp at h
  | succ fuel ih =>
    intro fuel' l h h'
    match l with
    | [] => cases fuel' <;> rfl
    | x :: xs =>
      match fuel' with
      | 0 => simp at h'
      | fuel' + 1 =>
        simp only [chunksOfAux]
        rw [ih fuel' (xs.drop (n - 1)) (by simp at h ⊢; omega) (by simp at h' ⊢; omega)]

theorem chunksOf_cons (n : Nat) (x : α) (xs : List α) :
    chunksOf n (x :: xs) = (x :: xs.take (n - 1)) :: chunksOf n (xs.drop (n - 1)) := by
  simp only [chunksOf, List.length_cons, chunksOfAux]
  rw [chunksOfAux_congr n xs.length (xs.drop (n - 1)).length (xs.drop (n - 1))
    (by simp only [List.length_drop]; exact Nat.sub_le _ _) (le_refl _)]

theorem chunksOf_join (n : Nat) (l : List α) : (chunksOf n l).flatten = l := by
  match l with
  | [] => rfl
  | x :: xs =>
    rw [chunksOf_cons, List.flatten_cons, chunksOf_join n (xs.drop (n - 1))]
    simp [List.cons_append, List.take_append_drop]
termination_by l.length
decreasing_by simp only [List.length_cons, List.length_drop]; omega

theorem chunksOf_mem (n : Nat) (hn : 0 < n) (l : List α) :
    ∀ c ∈ chunksOf n l, c ≠ [] ∧ c.length ≤ n := by
  match l with
  | [] => intro c hc; simp [chunksOf, chunksOfAux] at hc
  | x :: xs =>
    intro c hc
    rw [chunksOf_cons] at hc
    rcases List.mem_cons.1 hc with h | h
    · subst h
      refine ⟨by simp, ?_⟩
      simp only [List.length_cons, List.length_take]
      omega
    · exact chunksOf_mem n hn (xs.drop (n - 1)) c h
termination_by l.length
decreasing_by simp only [List.length_cons, List.length_drop]; omega

theorem chunksOf_eq_nil_iff (n : Nat) (l : List α) : chunksOf n l = [] ↔ l = [] := by
  cases l with
  | nil => simp [chunksOf, chunksOfAux]
  | cons x xs => rw [chunksOf_cons]; simp

theorem chunksOf_dropLast (n : Nat) (hn : 0 < n) (l : List α) :
    ∀ c ∈ (chunksOf n l).dropLast, c.length = n := by
  match l with
  | [] => intro c hc; simp [chunksOf, chunksOfAux] at hc
  | x :: xs =>
    intro c hc
    rw [chunksOf_cons] at hc
    match hrest : chunksOf n (xs.drop (n - 1)) with
    | [] => rw [hrest] at hc; simp at hc
    | r :: rs =>
      rw [hrest] at hc
      simp only [List.dropLast] at hc
      rcases List.mem_cons.1 hc with h | h
      · subst h
        have hxs : xs.drop (n - 1) ≠ [] := by
          intro hd
          rw [hd] at hrest
          simp [chunksOf, chunksOfAux] at hrest
        have hlen : n - 1 < xs.length := by
          by_contra hcon
          exact hxs (List.drop_eq_nil_of_le (by omega))
        simp only [List.length_cons, List.length_take]
        omega
      · have := chunksOf_dropLast n hn (xs.drop (n - 1))
        rw [hrest] at this
        exact this c h
termination_by l.length
decreasing_by simp only [List.length_cons, List.length_drop]; omega

theorem send_batch_go_eq (ok : Nat → Bool) (cs : List (List Event)) :
    ∀ i total acc, send_batch_go ok i total acc cs =
      (total + (acceptedJoin ok i cs).length, acc ++ acceptedJoin ok i cs) := by
  induction cs with
  | nil => intro i total acc; simp [send_batch_go, acceptedJoin]
  | cons c cs ih =>
    intro i total acc
    cases h : ok i
    · simp [send_batch_go, acceptedJoin, h, ih]
    · simp [send_batch_go, acceptedJoin, h, ih, Nat.add_assoc, List.append_assoc]

/-- Claim C1: `send_events_batch` splits its input into consecutive chunks of
`batch_size` events (all chunks nonempty, every non-final chunk exactly
`batch_size`, the final one at most `batch_size`, and the chunks concatenate
back to the input); a chunk whose send raises is skipped while subsequent
chunks are still attempted, the returned `accepted_events` is exactly the
in-order concatenation of the successful chunks, and `accepted_count` is its
length. -/
theorem claim_C1_send_events_batch (ok : Nat → Bool) (log_entries : List Event)
    (batch_size : Nat) (hbs : 0 < batch_size) :
    (chunksOf batch_size log_entries).flatten = log_entries
    ∧ (∀ c ∈ chunksOf batch_size log_entries, c ≠ [] ∧ c.length ≤ batch_size)
    ∧ (∀ c ∈ (chunksOf batch_size log_entries).dropLast, c.length = batch_size)
    ∧ send_events_batch ok log_entries batch_size =
        ((acceptedJoin ok 0 (chunksOf batch_size log_entries)).length,
         acceptedJoin ok 0 (chunksOf batch_size log_entries)) := by
  refine ⟨chunksOf_join _ _, chunksOf_mem _ hbs _, chunksOf_dropLast _ hbs _, ?_⟩
  unfold send_events_batch
  match log_entries with
  | [] => simp [chunksOf, acceptedJoin]
  | x :: xs => simp [send_batch_go_eq]

set_option maxRecDepth 20000 in
/-- Witness for C1: the spec's scenario — 250 events, batch size 100, chunks
of 100/100/50; the send of chunk 1 (0-based) fails, so 150 events are
accepted and exactly the second chunk's events are excluded. -/
theorem claim_C1_witness :
    (0 < 100
      ∧ ((chunksOf 100 evs250).flatten = evs250
        ∧ (∀ c ∈ chunksOf 100 evs250, c ≠ [] ∧ c.length ≤ 100)
        ∧ (∀ c ∈ (chunksOf 100 evs250).dropLast, c.length = 100)
        ∧ send_events_batch (fun i => decide (i ≠ 1)) evs250 100 =
            ((acceptedJoin (fun i => decide (i ≠ 1)) 0 (chunksOf 100 evs250)).length,
             acceptedJoin (fun i => decide (i ≠ 1)) 0 (chunksOf 100 evs250))))
    ∧ (chunksOf 100 evs250).map List.length = [100, 100, 50]
    ∧ (send_events_batch (fun i => decide (i ≠ 1)) evs250 100).1 = 150
    ∧ (send_events_batch (fun i => decide (i ≠ 1)) evs250 100).2 =
        evs250.take 100 ++ evs250.drop 200 :=
  ⟨⟨by decide, claim_C1_send_events_batch (fun i => decide (i ≠ 1)) evs250 100 (by decide)⟩,
   by decide, by decide, by decide⟩

/-- The fingerprint depends only on the six identity fields. -/
theorem generate_event_hash_congr (e1 e2 : Event)
    (h : identityFields e1 = identityFields e2) :
    generate_event_hash e1 = generate_event_hash e2 := by
  unfold generate_event_hash
  rw [h]

/-- Claim C4: the event fingerprint is a pure function of exactly the six
identity fields (missing fields read as `''`): two events agreeing on them
have equal fingerprints regardless of other fields, and the fingerprint is
the SHA-256 hexdigest of the six values joined in the fixed order with the
separator `'|'`. -/
theorem claim_C4_fingerprint (e1 e2 : Event)
    (h : identityFields e1 = identityFields e2) :
    generate_event_hash e1 = generate_event_hash e2
    ∧ generate_event_hash e1 =
        sha256Hexdigest (strBytes (String.intercalate "|"
          [e1.getField "start_time", e1.getField "actor_id", e1.getField "action",
           e1.getField "target_type", e1.getField "target_id",
           e1.getField "organization_id"])) :=
  ⟨generate_event_hash_congr e1 e2 h, rfl⟩

/-- Witness for C4 at concrete events differing only in a non-identity
field. -/
theorem claim_C4_witness :
    identityFields e0x = identityFields e0
    ∧ (generate_event_hash e0x = generate_event_hash e0
      ∧ generate_event_hash e0x =
          sha256Hexdigest (strBytes (String.intercalate "|"
            [e0x.getField "start_time", e0x.getField "actor_id", e0x.getField "action",
             e0x.getField "target_type", e0x.getField "target_id",
             e0x.getField "organization_id"]))) :=
  ⟨by decide, claim_C4_fingerprint e0x e0 (by decide)⟩

attribute [irreducible] generate_event_hash

theorem daemon_run_eq (cycles : List (Int × Bool)) : ∀ st,
    daemon_run st cycles = match last_successful_end cycles with
      | some t => some t
      | none => st := by
  induction cycles with
  | nil => intro st; rfl
  | cons c rest ih =>
    intro st
    obtain ⟨now, s⟩ := c
    rw [daemon_run, ih, last_successful_end]
    cases h : last_successful_end rest
    · cases s <;> simp [daemon_step]
    · simp

/-- Claim C2: across any sequence of daemon cycles, `last_run_time` equals
the end of the last cycle that completed without raising (a raising cycle
leaves it unchanged); the next cycle's window is `[now − lookback, now)`
while no cycle has succeeded, and `[last_successful_end − 30, now)`
afterwards, so its start is never strictly later than
`last_successful_end − 30`. -/
theorem claim_C2_daemon_window (lookback : Int) (cycles : List (Int × Bool)) (now : Int) :
    daemon_run none cycles = last_successful_end cycles
    ∧ (last_successful_end cycles = none →
        cycle_window lookback (daemon_run none cycles) now = (now - lookback, now))
    ∧ (∀ t, last_successful_end cycles = some t →
        cycle_window lookback (daemon_run none cycles) now = (t - 30, now)
        ∧ (cycle_window lookback (daemon_run none cycles) now).1 ≤ t - 30)
    ∧ (∀ st n, daemon_step st n false = st) := by
  have h := daemon_run_eq cycles none
  refine ⟨?_, ?_, ?_, fun st n => rfl⟩
  · rw [h]; cases last_successful_end cycles <;> rfl
  · intro hn; rw [h, hn]; rfl
  · intro t ht; rw [h, ht]; exact ⟨rfl, le_refl _⟩

/-- Witness for C2: cycle 1 ends at 1000 and succeeds, cycle 2 ends at 1300
and raises; the next window computed at 1600 starts at 970 = 1000 − 30. -/
theorem claim_C2_witness :
    last_successful_end [((1000 : Int), true), (1300, false)] = some 1000
    ∧ (cycle_window 600 (daemon_run none [((1000 : Int), true), (1300, false)]) 1600 =
        (1000 - 30, 1600)
      ∧ (cycle_window 600 (daemon_run none [((1000 : Int), true), (1300, false)]) 1600).1 ≤
          1000 - 30) :=
  ⟨rfl, (claim_C2_daemon_window 600 [((1000 : Int), true), (1300, false)] 1600).2.2.1 1000 rfl⟩

/-- Claim C9: `_load_state` never propagates a failure — an absent file, an
unparsable file, a non-object file, a missing or ill-typed `seen_events`
entry, or any timestamp that fails numeric conversion all leave the store
empty, while a well-formed file is loaded and then purged of expired
entries. -/
theorem claim_C9_load_state (w now : Int) :
    load_state true w now .absent = []
    ∧ load_state true w now .unparsable = []
    ∧ load_state true w now .notObject = []
    ∧ load_state true w now (.parsed .missing) = []
    ∧ load_state true w now (.parsed .notDict) = []
    ∧ (∀ entries, anyMalformed entries = true →
        load_state true w now (.parsed (.dict entries)) = [])
    ∧ (∀ entries, anyMalformed entries = false →
        load_state true w now (.parsed (.dict entries)) =
          cleanup_old_entries true w now (entries.map (fun p => (p.1, tsValue p.2)))) := by
  refine ⟨rfl, rfl, rfl, rfl, rfl, ?_, ?_⟩
  · intro entries h; simp [load_state, h]
  · intro entries h; simp [load_state, h]

/-- Witness for C9 at a state file with a malformed timestamp. -/
theorem claim_C9_witness :
    anyMalformed [("deadbeef", .malformed)] = true
    ∧ load_state true 10 0 (.parsed (.dict [("deadbeef", .malformed)])) = [] :=
  ⟨rfl, (claim_C9_load_state 10 0).2.2.2.2.2.1 [("deadbeef", .malformed)] rfl⟩

/-- Claim C5: a chunk send succeeds exactly when the transport yields a
response that `raise_for_status` accepts and the parsed JSON body's `text`
field equals `"Success"`; in particular a 2xx response whose body says
anything else makes `send_events` raise `SplunkHECError`, so a 2xx
transport response alone never confirms delivery. -/
theorem claim_C5_send_events (t : Transport) (log_entries : List Event)
    (hne : log_entries ≠ []) :
    (send_events t log_entries = .ok true ↔
      ∃ status fields, t = .response status (.obj fields)
        ∧ raise_for_status_raises status = false
        ∧ List.lookup "text" fields = some "Success")
    ∧ (∀ status fields, 200 ≤ status → status < 300 →
        List.lookup "text" fields ≠ some "Success" →
        send_events (.response status (.obj fields)) log_entries =
          .error .splunkHECError) := by
  have hemp : log_entries.isEmpty = false := by
    cases log_entries
    · exact absurd rfl hne
    · rfl
  constructor
  · constructor
    · intro h
      match t with
      | .requestException => simp [send_events, hemp] at h
      | .response status body =>
        cases hrs : raise_for_status_raises status
        · match body with
          | .malformed => simp [send_events, hemp, hrs] at h
          | .obj fields =>
            by_cases htext : List.lookup "text" fields = some "Success"
            · exact ⟨status, fields, rfl, hrs, htext⟩
            · simp [send_events, hemp, hrs, htext] at h
        · simp [send_events, hemp, hrs] at h
    · rintro ⟨status, fields, rfl, hrs, htext⟩
      simp [send_events, hemp, hrs, htext]
  · intro status fields h1 h2 htext
    have hrs : raise_for_status_raises status = false := by
      simp only [raise_for_status_raises, decide_eq_false_iff_not]
      omega
    simp [send_events, hemp, hrs, htext]

/-- Witness for C5: a 2xx response whose body text is `"Invalid token"` is
rejected, and a 2xx response with body text `"Success"` is accepted. -/
theorem claim_C5_witness :
    ([e0] : List Event) ≠ []
    ∧ ((send_events (.response 200 (.obj [("text", "Invalid token")])) [e0] = .ok true ↔
        ∃ status fields,
          Transport.response 200 (.obj [("text", "Invalid token")]) =
            .response status (.obj fields)
          ∧ raise_for_status_raises status = false
          ∧ List.lookup "text" fields = some "Success")
      ∧ (∀ status fields, 200 ≤ status → status < 300 →
          List.lookup "text" fields ≠ some "Success" →
          send_events (.response status (.obj fields)) [e0] = .error .splunkHECError))
    ∧ send_events (.response 200 (.obj [("text", "Invalid token")])) [e0] =
        .error .splunkHECError
    ∧ send_events (.response 200 (.obj [("text", "Success")])) [e0] = .ok true :=
  ⟨by decide, claim_C5_send_events (.response 200 (.obj [("text", "Invalid token")])) [e0]
      (by decide), by rfl, by rfl⟩

theorem paginate_go_spec (oracle : Nat → Nat → PageResult) (page_size : Nat)
    (max_pages : Option Nat) : ∀ (fuel : Nat) (acc : List Event) (offset page_count : Nat)
    (r : Except PyError (List Event)),
    paginate_go oracle page_size max_pages fuel acc offset page_count = some r →
    ∃ r0, PaginationSpec oracle page_size max_pages offset page_count r0
      ∧ r = exceptPrepend acc r0 := by
  intro fuel
  induction fuel with
  | zero => intro acc off pc r h; simp [paginate_go] at h
  | succ fuel ih =>
    intro acc off pc r h
    rw [paginate_go] at h
    cases hcap : cap_reached max_pages pc
    · rw [hcap] at h
      simp only [Bool.false_eq_true, if_false] at h
      cases horacle : oracle off page_size
      case apiError =>
        rw [horacle] at h
        simp only [Option.some.injEq] at h
        exact ⟨.error .crusoeAPIError, .apiAbort off pc hcap horacle,
          by rw [← h]; rfl⟩
      case otherError =>
        rw [horacle] at h
        simp only [Option.some.injEq] at h
        exact ⟨.ok [], .unexpectedTruncate off pc hcap horacle,
          by rw [← h]; simp [exceptPrepend]⟩
      case ok logs =>
        rw [horacle] at h
        match logs with
        | [] =>
          simp only [List.isEmpty_nil, if_true, Option.some.injEq] at h
          exact ⟨.ok [], .emptyPage off pc hcap horacle,
            by rw [← h]; simp [exceptPrepend]⟩
        | l :: ls =>
          simp only [List.isEmpty_cons, Bool.false_eq_true, if_false] at h
          by_cases hlt : (l :: ls).length < page_size
          · rw [if_pos hlt] at h
            simp only [Option.some.injEq] at h
            exact ⟨.ok (l :: ls),
              .shortPage off pc (l :: ls) hcap horacle (by simp) hlt,
              by rw [← h]; rfl⟩
          · rw [if_neg hlt] at h
            obtain ⟨r0, hspec, hr⟩ := ih (acc ++ l :: ls) (off + (l :: ls).length)
              (pc + 1) r h
            refine ⟨exceptPrepend (l :: ls) r0,
              .fullPage off pc (l :: ls) r0 hcap horacle (by simp) hlt hspec, ?_⟩
            rw [hr]
            cases r0 <;> simp [exceptPrepend]
    · rw [hcap] at h
      simp only [if_true, Option.some.injEq] at h
      exact ⟨.ok [], .capped off pc hcap, by rw [← h]; simp [exceptPrepend]⟩

/-- Claim C6: whenever the pagination loop of `get_audit_logs_paginated`
terminates, its behavior satisfies the spec's description: the single-page
fetch is called with offset 0 and then offsets incremented by the count of
events the previous page returned, always with `limit = page_size`; pages
are concatenated in order; the loop stops on an empty page, a page shorter
than `page_size`, or the page cap; a typed API error on any page makes the
whole call raise with no partial result, while any other exception
truncates and returns what was accumulated. -/
theorem claim_C6_pagination (oracle : Nat → Nat → PageResult) (page_size : Nat)
    (max_pages : Option Nat) (fuel : Nat) (r : Except PyError (List Event))
    (h : get_audit_logs_paginated oracle page_size max_pages fuel = some r) :
    PaginationSpec oracle page_size max_pages 0 0 r := by
  obtain ⟨r0, hspec, hr⟩ := paginate_go_spec oracle page_size max_pages fuel [] 0 0 r h
  cases r0 with
  | ok l => simp only [exceptPrepend, List.nil_append] at hr; rwa [hr]
  | error e => simp only [exceptPrepend] at hr; rwa [hr]

/-- Witness for C6: three events served in pages of two are returned intact
and the run satisfies the pagination specification. -/
theorem claim_C6_witness :
    get_audit_logs_paginated pageOracle3 2 none 10 =
      some (.ok [[("target_id", "0")], [("target_id", "1")], [("target_id", "2")]])
    ∧ PaginationSpec pageOracle3 2 none 0 0
        (.ok [[("target_id", "0")], [("target_id", "1")], [("target_id", "2")]]) :=
  ⟨by rfl, claim_C6_pagination pageOracle3 2 none 10
    (.ok [[("target_id", "0")], [("target_id", "1")], [("target_id", "2")]]) (by rfl)⟩

/-- Claim C7 counterexample: for the undecodable secret `"a"`, the signature
routine raises `CrusoeAPIError` itself — there is no distinct
authentication-configuration error type, contradicting the claim that the
raised error is distinct from the transient source-API error. -/
theorem claim_C7_counterexample :
    urlsafe_b64decode (pad_base64 "a") = none
    ∧ create_crusoe_signature "AKID" "a" "GET" "/v1alpha5/organizations/org/audit-logs" []
        "2026-01-01T00:00:00+00:00" = .error .crusoeAPIError
    ∧ ¬ (∃ err, err ≠ PyError.crusoeAPIError
        ∧ create_crusoe_signature "AKID" "a" "GET" "/v1alpha5/organizations/org/audit-logs" []
            "2026-01-01T00:00:00+00:00" = .error err) := by
  refine ⟨by decide, by rfl, ?_⟩
  rintro ⟨err, hne, heq⟩
  have : err = PyError.crusoeAPIError := by
    have h2 : create_crusoe_signature "AKID" "a" "GET"
        "/v1alpha5/organizations/org/audit-logs" [] "2026-01-01T00:00:00+00:00" =
        .error .crusoeAPIError := by rfl
    rw [h2] at heq
    cases heq
    rfl
  exact hne this

/-- Claim C7 (amended): in keyed credential mode, a secret that cannot be
base64url-decoded (after the padding the code appends) makes the signature
routine raise `CrusoeAPIError` — the same exception type as the transient
source-API error, there being no distinct authentication error class — and
the HTTP request is never attempted (hence never retried). -/
theorem claim_C7_amended (akid secret full_path timestamp : String)
    (params : List (String × String)) (transport : Except Unit (List Event))
    (hfail : urlsafe_b64decode (pad_base64 secret) = none) :
    create_crusoe_signature akid secret "GET" full_path params timestamp =
      .error .crusoeAPIError
    ∧ get_audit_logs_signed none (some akid) (some secret) full_path params timestamp
        transport = (.error .crusoeAPIError, false) := by
  have h1 : create_crusoe_signature akid secret "GET" full_path params timestamp =
      .error .crusoeAPIError := by
    simp only [create_crusoe_signature, hfail]
  exact ⟨h1, by simp only [get_audit_logs_signed, sign_request, h1]⟩

/-- Witness for C7 (amended) at the secret `"a"`. -/
theorem claim_C7_witness :
    urlsafe_b64decode (pad_base64 "a") = none
    ∧ (create_crusoe_signature "AK" "a" "GET" "/v1alpha5/x" [] "T" = .error .crusoeAPIError
      ∧ get_audit_logs_signed none (some "AK") (some "a") "/v1alpha5/x" [] "T" (.ok []) =
          (.error .crusoeAPIError, false)) :=
  ⟨by decide, claim_C7_amended "AK" "a" "/v1alpha5/x" "T" [] (.ok []) (by decide)⟩

/-! ### Association-list lemmas for the deduplication store -/

theorem lookup_append_assoc (a : String) (l1 l2 : SeenEvents) :
    List.lookup a (l1 ++ l2) =
      match List.lookup a l1 with
      | some v => some v
      | none => List.lookup a l2 := by
  induction l1 with
  | nil => simp [List.lookup]
  | cons p l ih =>
    obtain ⟨k, v⟩ := p
    simp only [List.cons_append, List.lookup]
    cases h : a == k <;> simp [ih]

theorem lookup_eq_none_of_not_mem (a : String) (l : SeenEvents)
    (h : a ∉ l.map Prod.fst) : List.lookup a l = none := by
  induction l with
  | nil => rfl
  | cons p l ih =>
    obtain ⟨k, v⟩ := p
    simp only [List.map_cons, List.mem_cons] at h
    push_neg at h
    have hbeq : (a == k) = false := by simp [h.1]
    simp [List.lookup, hbeq, ih h.2]

theorem lookup_isSome_of_mem (a : String) (l : SeenEvents)
    (h : a ∈ l.map Prod.fst) : (List.lookup a l).isSome = true := by
  induction l with
  | nil => simp at h
  | cons p l ih =>
    obtain ⟨k, v⟩ := p
    simp only [List.map_cons, List.mem_cons] at h
    cases hak : a == k
    · simp only [List.lookup, hak]
      rcases h with h | h
      · rw [h] at hak; simp at hak
      · exact ih h
    · simp [List.lookup, hak]

theorem lookup_filter (p : Int → Bool) (a : String) (l : SeenEvents)
    (hnd : (l.map Prod.fst).Nodup) :
    List.lookup a (l.filter (fun q => p q.2)) =
      match List.lookup a l with
      | some v => if p v then some v else none
      | none => none := by
  induction l with
  | nil => rfl
  | cons q l ih =>
    obtain ⟨k, v⟩ := q
    simp only [List.map_cons, List.nodup_cons] at hnd
    cases hak : a == k
    · cases hpv : p v <;>
        simp [List.filter_cons, List.lookup, hpv, hak, ih hnd.2]
    · have ha : a = k := by simpa using hak
      cases hpv : p v
      · have hnone : List.lookup a (l.filter (fun q => p q.2)) = none := by
          apply lookup_eq_none_of_not_mem
          intro hmem
          have hsub : a ∈ l.map Prod.fst := by
            obtain ⟨q, hq, hq2⟩ := List.mem_map.1 hmem
            exact hq2 ▸ List.mem_map_of_mem _ (List.mem_of_mem_filter hq)
          rw [ha] at hsub
          exact hnd.1 hsub
        simp [List.filter_cons, hpv, List.lookup, hak, hnone]
      · simp [List.filter_cons, hpv, List.lookup, hak]

theorem mark_go_lookup_mono (now : Int) (events : List Event) :
    ∀ (seen : SeenEvents) (a : String) (v : Int),
    List.lookup a seen = some v → List.lookup a (mark_go now seen events) = some v := by
  induction events with
  | nil => intro seen a v h; exact h
  | cons e rest ih =>
    intro seen a v h
    rw [mark_go]
    apply ih
    cases hp : (List.lookup (generate_event_hash e) seen).isSome
    · simp only [hp, Bool.false_eq_true, if_false]
      rw [lookup_append_assoc, h]
    · simp only [hp, if_true]
      exact h

theorem mark_go_lookup_of_mem (now : Int) (events : List Event) (e : Event) :
    ∀ seen : SeenEvents, e ∈ events →
    List.lookup (generate_event_hash e) (mark_go now seen events) =
      some ((List.lookup (generate_event_hash e) seen).getD now) := by
  induction events with
  | nil => intro seen h; cases h
  | cons e2 rest ih =>
    intro seen hmem
    rw [mark_go]
    rcases List.mem_cons.1 hmem with heq | hrest
    · subst heq
      have hstep : List.lookup (generate_event_hash e)
          (if (List.lookup (generate_event_hash e) seen).isSome then seen
           else seen ++ [(generate_event_hash e, now)]) =
          some ((List.lookup (generate_event_hash e) seen).getD now) := by
        cases hp : List.lookup (generate_event_hash e) seen
        · simp only [hp, Option.isSome_none, Bool.false_eq_true, if_false]
          rw [lookup_append_assoc, hp]
          simp [List.lookup]
        · simp [hp]
      cases rest with
      | nil => exact hstep
      | cons r rs => exact mark_go_lookup_mono now (r :: rs) _ _ _ hstep
    · rw [ih _ hrest]
      cases hp : (List.lookup (generate_event_hash e2) seen).isSome
      · simp only [hp, Bool.false_eq_true, if_false]
        rw [lookup_append_assoc]
        cases hq : List.lookup (generate_event_hash e) seen
        · simp only [Option.getD_none]
          cases hh : generate_event_hash e == generate_event_hash e2 <;>
            simp [List.lookup, hh]
        · simp [hq]
      · simp only [hp, if_true]

theorem mark_go_nodup (now : Int) (events : List Event) :
    ∀ seen : SeenEvents, (seen.map Prod.fst).Nodup →
    ((mark_go now seen events).map Prod.fst).Nodup := by
  induction events with
  | nil => intro seen h; exact h
  | cons e rest ih =>
    intro seen h
    rw [mark_go]
    apply ih
    cases hp : List.lookup (generate_event_hash e) seen with
    | some v => simp only [hp, Option.isSome_some, if_true]; exact h
    | none =>
      simp only [hp, Option.isSome_none, Bool.false_eq_true, if_false, List.map_append,
        List.map_cons, List.map_nil]
      refine List.Nodup.append h (List.nodup_singleton _) ?_
      intro a ha hb
      simp only [List.mem_singleton] at hb
      subst hb
      exact absurd (lookup_isSome_of_mem _ seen ha) (by simp [hp])

/-- `cleanup_old_entries` on an enabled store is the filter keeping strictly
fresh entries. -/
theorem cleanup_eq (w now : Int) (s : SeenEvents) :
    cleanup_old_entries true w now s = s.filter (fun p => decide (now - w < p.2)) := rfl

theorem cleanup_idem (w now : Int) (s : SeenEvents) :
    cleanup_old_entries true w now (cleanup_old_entries true w now s) =
      cleanup_old_entries true w now s := by
  rw [cleanup_eq, cleanup_eq]
  induction s with
  | nil => rfl
  | cons p l ih =>
    cases hp : decide (now - w < p.2) <;> simp [List.filter_cons, hp, ih]

theorem is_duplicate_eq (w now : Int) (s : SeenEvents) (e : Event) :
    is_duplicate true w now s e =
      ((List.lookup (generate_event_hash e) (cleanup_old_entries true w now s)).isSome,
        cleanup_old_entries true w now s) := rfl

theorem filter_go_state (w now : Int) (events : List Event) :
    ∀ s, (filter_duplicates_go w now s events).2 =
      if events.isEmpty then s else cleanup_old_entries true w now s := by
  induction events with
  | nil => intro s; rfl
  | cons e rest ih =>
    intro s
    simp only [filter_duplicates_go, is_duplicate_eq]
    rw [ih]
    cases rest with
    | nil => simp
    | cons r rs => simp [cleanup_idem]

theorem filter_go_result (w now : Int) (events : List Event) :
    ∀ s, (filter_duplicates_go w now s events).1 =
      events.filter (fun e =>
        !(List.lookup (generate_event_hash e) (cleanup_old_entries true w now s)).isSome) := by
  induction events with
  | nil => intro s; rfl
  | cons e rest ih =>
    intro s
    simp only [filter_duplicates_go, is_duplicate_eq]
    rw [ih (cleanup_old_entries true w now s), cleanup_idem]
    cases hd : List.lookup (generate_event_hash e) (cleanup_old_entries true w now s) <;>
      simp [List.filter_cons, hd]

/-- Claim C8: on an enabled store, `filter_duplicates` returns exactly the
events whose fingerprint is not currently recorded, in their original
relative order (i.e. it is `List.filter` of the non-duplicate predicate);
it does not change the set of validly recorded fingerprints (the only state
change is the purge of already-expired entries, so every subsequent
duplicate test answers as before); and it is idempotent: filtering its own
output on the resulting store yields that output unchanged. -/
theorem claim_C8_filter_duplicates (w now : Int) (seen : SeenEvents) (events : List Event) :
    (filter_duplicates true w now seen events).1 =
      events.filter (fun e => !(is_duplicate true w now seen e).1)
    ∧ cleanup_old_entries true w now (filter_duplicates true w now seen events).2 =
        cleanup_old_entries true w now seen
    ∧ (∀ e, (is_duplicate true w now (filter_duplicates true w now seen events).2 e).1 =
        (is_duplicate true w now seen e).1)
    ∧ (filter_duplicates true w now (filter_duplicates true w now seen events).2
        (filter_duplicates true w now seen events).1).1 =
      (filter_duplicates true w now seen events).1 := by
  have hfd : filter_duplicates true w now seen events =
      filter_duplicates_go w now seen events := rfl
  have hclean : cleanup_old_entries true w now (filter_duplicates_go w now seen events).2 =
      cleanup_old_entries true w now seen := by
    rw [filter_go_state]
    cases events with
    | nil => simp
    | cons e rest => simp [cleanup_idem]
  refine ⟨?_, ?_, ?_, ?_⟩
  · rw [hfd]
    exact filter_go_result w now events seen
  · rw [hfd]
    exact hclean
  · intro e
    rw [hfd]
    simp only [is_duplicate_eq]
    rw [hclean]
  · rw [hfd]
    have h2 := filter_go_result w now (filter_duplicates_go w now seen events).1
      (filter_duplicates_go w now seen events).2
    rw [show filter_duplicates true w now (filter_duplicates_go w now seen events).2
        (filter_duplicates_go w now seen events).1 =
        filter_duplicates_go w now (filter_duplicates_go w now seen events).2
        (filter_duplicates_go w now seen events).1 from rfl]
    rw [h2, hclean]
    apply List.filter_eq_self.2
    intro e he
    rw [filter_go_result w now events seen] at he
    exact (List.mem_filter.1 he).2

/-- Claim C3 counterexample: an event marked at time 0 with
`tracking_window_seconds = 10`, queried at time 10 — the age `10 − 0` is
`≤ 10`, yet `is_duplicate` answers `false`, because the purge keeps only
entries with `timestamp > now − window` (strict), refuting the claim's
non-strict bound. -/
theorem claim_C3_counterexample :
    (mark_events_as_sent true 0 [] [e0]).2 = some [(generate_event_hash e0, 0)]
    ∧ List.lookup (generate_event_hash e0) (mark_events_as_sent true 0 [] [e0]).1 = some 0
    ∧ ((10 : Int) - 0 ≤ 10)
    ∧ (is_duplicate true 10 10 (mark_events_as_sent true 0 [] [e0]).1 e0).1 = false := by
  have hm : mark_events_as_sent true 0 [] [e0] =
      ([(generate_event_hash e0, 0)], some [(generate_event_hash e0, 0)]) := by
    simp [mark_events_as_sent, mark_go, List.lookup]
  refine ⟨by rw [hm], ?_, by norm_num, ?_⟩
  · rw [hm]
    simp [List.lookup]
  · rw [hm]
    simp only [is_duplicate_eq, cleanup_eq, List.filter_cons]
    norm_num [List.lookup]

/-- Claim C3 (amended): on an enabled store, after `mark_sent` with a list
containing the event, its fingerprint is recorded at the current time
(an already-present entry keeps its original time) and the full updated
state is persisted; from then on `is_duplicate` on any event with the same
six identity fields answers true exactly at times `t` with
`t − record_time < tracking_window_seconds` (strictly), and once
`t − record_time ≥ tracking_window_seconds` the purge performed at the
start of the duplicate check removes the record and the answer is false. -/
theorem claim_C3_amended (seen : SeenEvents) (events : List Event) (e e2 : Event)
    (now w t : Int) (hnd : (seen.map Prod.fst).Nodup) (hmem : e ∈ events)
    (hid : identityFields e = identityFields e2) :
    (mark_events_as_sent true now seen events).2 =
      some (mark_events_as_sent true now seen events).1
    ∧ List.lookup (generate_event_hash e) (mark_events_as_sent true now seen events).1 =
        some ((List.lookup (generate_event_hash e) seen).getD now)
    ∧ (List.lookup (generate_event_hash e) seen = none →
        (List.lookup (generate_event_hash e) seen).getD now = now)
    ∧ ((is_duplicate true w t (mark_events_as_sent true now seen events).1 e2).1 = true ↔
        t - (List.lookup (generate_event_hash e) seen).getD now < w)
    ∧ (w ≤ t - (List.lookup (generate_event_hash e) seen).getD now →
        List.lookup (generate_event_hash e2)
          (is_duplicate true w t (mark_events_as_sent true now seen events).1 e2).2 = none) := by
  have hne : events ≠ [] := List.ne_nil_of_mem hmem
  have hemp : events.isEmpty = false := by
    cases events with
    | nil => exact absurd rfl hne
    | cons a l => rfl
  have hm1 : (mark_events_as_sent true now seen events).1 = mark_go now seen events := by
    simp [mark_events_as_sent, hemp]
  have hm2 : (mark_events_as_sent true now seen events).2 =
      some (mark_go now seen events) := by
    simp [mark_events_as_sent, hemp]
  have hlook := mark_go_lookup_of_mem now events e seen hmem
  have hnd2 := mark_go_nodup now events seen hnd
  have hhash : generate_event_hash e2 = generate_event_hash e :=
    generate_event_hash_congr e2 e hid.symm
  have hfilt : List.lookup (generate_event_hash e2)
      (cleanup_old_entries true w t (mark_go now seen events)) =
      (if decide (t - w < (List.lookup (generate_event_hash e) seen).getD now) then
        some ((List.lookup (generate_event_hash e) seen).getD now) else none) := by
    rw [cleanup_eq,
      lookup_filter (fun v => decide (t - w < v)) (generate_event_hash e2)
        (mark_go now seen events) hnd2, hhash, hlook]
  refine ⟨by rw [hm2, hm1], by rw [hm1]; exact hlook, fun h0 => by rw [h0]; rfl, ?_, ?_⟩
  · simp only [is_duplicate_eq, hm1, hfilt]
    by_cases hc : t - w < (List.lookup (generate_event_hash e) seen).getD now
    · simp [hc]
      omega
    · simp [hc]
      omega
  · intro hage
    simp only [is_duplicate_eq, hm1, hfilt]
    have hc : ¬ (t - w < (List.lookup (generate_event_hash e) seen).getD now) := by omega
    simp [hc]

/-- Witness for C3 (amended): marking `e0` at time 0 on an empty store with
window 10; at `t = 5` the identically-fingerprinted `e0x` is a duplicate. -/
theorem claim_C3_witness :
    ((([] : SeenEvents).map Prod.fst).Nodup ∧ e0 ∈ [e0]
      ∧ identityFields e0 = identityFields e0x)
    ∧ ((mark_events_as_sent true 0 ([] : SeenEvents) [e0]).2 =
        some (mark_events_as_sent true 0 ([] : SeenEvents) [e0]).1
      ∧ List.lookup (generate_event_hash e0)
          (mark_events_as_sent true 0 ([] : SeenEvents) [e0]).1 =
          some ((List.lookup (generate_event_hash e0) ([] : SeenEvents)).getD 0)
      ∧ (List.lookup (generate_event_hash e0) ([] : SeenEvents) = none →
          (List.lookup (generate_event_hash e0) ([] : SeenEvents)).getD 0 = 0)
      ∧ ((is_duplicate true 10 5 (mark_events_as_sent true 0 ([] : SeenEvents) [e0]).1
            e0x).1 = true ↔
          5 - (List.lookup (generate_event_hash e0) ([] : SeenEvents)).getD 0 < 10)
      ∧ (10 ≤ 5 - (List.lookup (generate_event_hash e0) ([] : SeenEvents)).getD 0 →
          List.lookup (generate_event_hash e0x)
            (is_duplicate true 10 5 (mark_events_as_sent true 0 ([] : SeenEvents) [e0]).1
              e0x).2 = none)) :=
  ⟨⟨List.nodup_nil, List.mem_singleton_self e0, rfl⟩,
   claim_C3_amended [] [e0] e0 e0x 0 10 5 List.nodup_nil (List.mem_singleton_self e0) rfl⟩

/-- Claim C10: `filter_duplicates` records nothing, so it does not
deduplicate within its own input — two events with identical identity
fields, neither recorded in the store, are both returned, and both remain
non-duplicates (hence eligible to be sent in the same cycle) afterwards. -/
theorem claim_C10_no_intra_batch (w now : Int) (seen : SeenEvents) (e1 e2 : Event)
    (hid : identityFields e1 = identityFields e2)
    (hnew : (is_duplicate true w now seen e1).1 = false) :
    (filter_duplicates true w now seen [e1, e2]).1 = [e1, e2]
    ∧ (is_duplicate true w now (filter_duplicates true w now seen [e1, e2]).2 e1).1 = false
    ∧ (is_duplicate true w now (filter_duplicates true w now seen [e1, e2]).2 e2).1 =
        false := by
  have hhash : generate_event_hash e2 = generate_event_hash e1 :=
    generate_event_hash_congr e2 e1 hid.symm
  have h1 : (List.lookup (generate_event_hash e1)
      (cleanup_old_entries true w now seen)).isSome = false := hnew
  have h2 : (List.lookup (generate_event_hash e2)
      (cleanup_old_entries true w now seen)).isSome = false := by
    rw [hhash]; exact h1
  have h1n : List.lookup (generate_event_hash e1) (cleanup_old_entries true w now seen) =
      none := by
    cases hl : List.lookup (generate_event_hash e1) (cleanup_old_entries true w now seen)
    · rfl
    · rw [hl] at h1; simp at h1
  have h2n : List.lookup (generate_event_hash e2) (cleanup_old_entries true w now seen) =
      none := by
    rw [hhash]; exact h1n
  have hfd : filter_duplicates true w now seen [e1, e2] =
      filter_duplicates_go w now seen [e1, e2] := rfl
  have hstate : (filter_duplicates_go w now seen [e1, e2]).2 =
      cleanup_old_entries true w now seen := by
    rw [filter_go_state]
    rfl
  refine ⟨?_, ?_, ?_⟩
  · rw [hfd, filter_go_result]
    simp [List.filter_cons, h1n, h2n]
  · rw [hfd]
    simp only [is_duplicate_eq, hstate, cleanup_idem]
    exact h1
  · rw [hfd]
    simp only [is_duplicate_eq, hstate, cleanup_idem]
    exact h2

/-- Witness for C10: two identically-fingerprinted events on the empty
store are both returned and both stay non-duplicates. -/
theorem claim_C10_witness :
    (identityFields e0 = identityFields e0x
      ∧ (is_duplicate true 10 0 ([] : SeenEvents) e0).1 = false)
    ∧ ((filter_duplicates true 10 0 ([] : SeenEvents) [e0, e0x]).1 = [e0, e0x]
      ∧ (is_duplicate true 10 0
          (filter_duplicates true 10 0 ([] : SeenEvents) [e0, e0x]).2 e0).1 = false
      ∧ (is_duplicate true 10 0
          (filter_duplicates true 10 0 ([] : SeenEvents) [e0, e0x]).2 e0x).1 = false) :=
  ⟨⟨rfl, rfl⟩, claim_C10_no_intra_batch 10 0 [] e0 e0x rfl rfl⟩

end Crusoe
